import Mathlib

/-!
Verification development for the linkedinbot repository.

The file shallowly embeds the two service modules that the specification's
claims are about:

* `services/linkedin_service.py` — OAuth token lifecycle and the publish
  pipeline (`exchange_code_for_token`, `_validate_token_and_user_id`,
  `create_post`, `_save_token`).  Network responses are supplied by explicit
  oracle structures; the trace of outbound calls is returned alongside the
  result so that "no further network call is made" style properties can be
  stated.

* `services/deepseek_service.py` — the generation orchestrator
  (`generate_post`, `_generate_with_deepseek`, `_generate_fallback_response`,
  `_format_post`, prompt construction).  Post text is modelled as `List Char`;
  Python's `str.replace`, `in`, `str.lower`, `str.strip` are modelled by
  executable functions below with the same semantics (left-to-right
  non-overlapping replacement, substring membership, ASCII lowering,
  whitespace trimming).

Python floats (the personality scalars) are modelled as rationals; the
comparisons `> 0.7` / `> 0.4` from the source are embedded as the
cross-multiplication test `qGtB`, which is proved equivalent to the
mathematical comparison in `qGtB_iff_lt`.
-/

/-! ## String model: Python string primitives over `List Char` -/

/-- Python `pat in s` (substring containment), over char lists. -/
def containsL (pat : List Char) : List Char → Bool
  | [] => pat.isEmpty
  | c :: cs => pat.isPrefixOf (c :: cs) || containsL pat cs

/-- Auxiliary scanner for Python `str.replace`: `k` is the number of already
matched pattern characters still to be skipped. -/
def replAux (pat rep : List Char) : List Char → Nat → List Char
  | [], _ => []
  | _ :: cs, k + 1 => replAux pat rep cs k
  | c :: cs, 0 =>
    if pat.isPrefixOf (c :: cs) then rep ++ replAux pat rep cs (pat.length - 1)
    else c :: replAux pat rep cs 0

/-- Python `s.replace(pat, rep)`: replaces non-overlapping occurrences left to
right, resuming the scan after each inserted replacement.  (Python's behaviour
for an empty pattern is never exercised by the source; we leave `s` unchanged
there.) -/
def replaceL (pat rep s : List Char) : List Char :=
  if pat.isEmpty then s else replAux pat rep s 0

/-- ASCII lowering of one character (models Python `str.lower` on the ASCII
text this code base manipulates; non-ASCII characters, e.g. emoji, are left
unchanged, as in Python). -/
def lowerC (c : Char) : Char :=
  if 'A' ≤ c ∧ c ≤ 'Z' then Char.ofNat (c.toNat + 32) else c

/-- Python `s.lower()` (ASCII fragment). -/
def toLowerL (s : List Char) : List Char := s.map lowerC

/-- Whitespace recognised by Python `str.strip` (ASCII fragment). -/
def isWS (c : Char) : Bool :=
  c = ' ' || c = '\t' || c = '\n' || c = '\r' || c = '\x0b' || c = '\x0c'

/-- Python `s.strip()`. -/
def stripL (s : List Char) : List Char :=
  ((s.dropWhile isWS).reverse.dropWhile isWS).reverse

/-- Python truthiness of an optional string (`None` and `""` are falsy). -/
def pyTruthy (o : Option (List Char)) : Bool :=
  match o with
  | none => false
  | some s => !s.isEmpty

/-- Python f-string rendering of an optional string (`None` renders as the
four characters `None`). -/
def pyStrOpt (o : Option (List Char)) : List Char :=
  match o with
  | none => "None".data
  | some s => s

/-- Python `", ".join(xs)`. -/
def joinComma (xs : List (List Char)) : List Char :=
  List.intercalate (", ".data) xs

/-- Decimal digits of a natural number (fuel-driven so that it is structurally
recursive and kernel-evaluable). -/
def natStrAux : Nat → Nat → List Char → List Char
  | 0, _, acc => acc
  | fuel + 1, n, acc =>
    if n < 10 then Char.ofNat (48 + n) :: acc
    else natStrAux fuel (n / 10) (Char.ofNat (48 + n % 10) :: acc)

/-- Decimal rendering of a natural number. -/
def natStr (n : Nat) : List Char := natStrAux (n + 1) n []

/-- Decimal rendering of an integer. -/
def intStr : Int → List Char
  | Int.ofNat n => natStr n
  | Int.negSucc n => '-' :: natStr (n + 1)

/-- Rendering of a modelled personality scalar inside an f-string.  The source
splices Python floats (e.g. `0.8`); we splice the modelled rational instead.
No claim depends on this rendering: the prompt text is only ever
keyword-matched for `article`/`video`, which a digit string cannot produce. -/
def ratStr (q : ℚ) : List Char :=
  intStr q.num ++ (if q.den = 1 then [] else '/' :: natStr q.den)

/-- The embedding of the source's float comparisons `x > n/10`: a
cross-multiplication test on the modelled rational, chosen so that it
evaluates inside the kernel.  `qGtB_iff_lt` below shows it coincides with the
mathematical comparison. -/
def qGtB (a : ℚ) (n d : Int) : Bool :=
  decide (n * (a.den : Int) < a.num * d)

/-! ## LinkedIn service: data model -/

/-- Durable token record: the JSON object `_save_token` writes to
`linkedin_token.json` (either field may be `null`). -/
structure TokenFile where
  access_token : Option String
  user_id : Option String
deriving DecidableEq, Repr

/-- In-memory service state plus the durable token file.
`tokenFile = none` models an absent `linkedin_token.json`. -/
structure LIState where
  access_token : Option String
  user_id : Option String
  tokenFile : Option TokenFile
deriving DecidableEq, Repr

/-- Response of the OpenID `userinfo` endpoint: HTTP status and the optional
`sub` field of the JSON body. -/
structure UserinfoResp where
  status : Nat
  sub : Option String
deriving DecidableEq, Repr

/-- Response of the token endpoint: HTTP status and the optional
`access_token` field of the JSON body. -/
structure TokenResp where
  status : Nat
  access_token : Option String
deriving DecidableEq, Repr

/-- Response of `POST /assets?action=registerUpload`: HTTP status and the
optional `value.asset` / `value.uploadInstructions.uploadUrl` fields (a
missing field raises `KeyError` in the source, caught by the outer handler). -/
structure AssetRegResp where
  status : Nat
  asset : Option String
  uploadUrl : Option String
deriving DecidableEq, Repr

/-- Response of `POST /ugcPosts`: HTTP status and raw body text. -/
structure UgcResp where
  status : Nat
  body : String
deriving DecidableEq, Repr

/-- Oracle for all network interactions `create_post` can perform. -/
structure LIWorld where
  userinfo : UserinfoResp
  assetReg : AssetRegResp
  imgDownload : Nat
  upload : Nat
  ugc : UgcResp
deriving DecidableEq, Repr

/-- Oracle for the two network calls of `exchange_code_for_token`. -/
structure ExWorld where
  token : TokenResp
  userinfo : UserinfoResp
deriving DecidableEq, Repr

/-- The `ugcPosts` payload, restricted to the fields the claims mention:
author URN, commentary text, `shareMediaCategory` and the optional attached
asset URN. -/
structure PostData where
  author : String
  text : String
  mediaCategory : String
  media : Option String
deriving DecidableEq, Repr

/-- One outbound network call of the publish pipeline. -/
inductive LICall where
  | userinfo
  | assetRegister
  | imgDownload
  | upload
  | ugcPost (payload : PostData)
deriving DecidableEq, Repr

/-- Distinct exit points of `create_post`.  The Python function returns a bare
`False` at each failure site; the sites are distinguished here by the distinct
log message each one emits (lines 218, 261, 271, 281, 307–308 of
`linkedin_service.py`), matching the specification's error taxonomy. -/
inductive PostOutcome where
  | success
  | notAuthenticated
  | noUserId
  | assetRegistrationFailed
  | imageDownloadFailed
  | assetUploadFailed
  | postCreationFailed (status : Nat) (body : String)
deriving DecidableEq, Repr

/-- Failure sites of `exchange_code_for_token` (each raises in the source). -/
inductive ExErr where
  | exchangeFailed (status : Nat)
  | noAccessToken
  | userinfoFailed (status : Nat)
  | noUserIdInResponse
deriving DecidableEq, Repr

/-! ## LinkedIn service: operations -/

/-- Embedding of `_validate_token_and_user_id` (lines 81–113).  Returns the
boolean result, the state after the call (the method overwrites
`self.user_id` with the response's `sub` field once the status check passed),
and the outbound calls made. -/
def validateTokenAndUserId (st : LIState) (w : LIWorld) :
    Bool × LIState × List LICall :=
  match st.access_token with
  | none => (false, st, [])
  | some _ =>
    if w.userinfo.status ≠ 200 then (false, st, [LICall.userinfo])
    else
      let st1 : LIState := { st with user_id := w.userinfo.sub }
      match w.userinfo.sub with
      | none => (false, st1, [LICall.userinfo])
      | some _ => (true, st1, [LICall.userinfo])

/-- Embedding of `_save_token` (lines 68–79): whole-file overwrite with the
current in-memory pair. -/
def saveToken (st : LIState) : LIState :=
  { st with tokenFile := some ⟨st.access_token, st.user_id⟩ }

/-- Embedding of `exchange_code_for_token` (lines 150–211).  The source
assigns `self.access_token` / `self.user_id` from the responses before
checking them for presence, and only calls `_save_token` after every check
passed; every failure site raises. -/
def exchangeCodeForToken (st : LIState) (w : ExWorld) :
    Except ExErr Unit × LIState :=
  if w.token.status ≠ 200 then (Except.error (ExErr.exchangeFailed w.token.status), st)
  else
    let st1 : LIState := { st with access_token := w.token.access_token }
    match w.token.access_token with
    | none => (Except.error ExErr.noAccessToken, st1)
    | some _ =>
      if w.userinfo.status ≠ 200 then
        (Except.error (ExErr.userinfoFailed w.userinfo.status), st1)
      else
        let st2 : LIState := { st1 with user_id := w.userinfo.sub }
        match w.userinfo.sub with
        | none => (Except.error ExErr.noUserIdInResponse, st2)
        | some _ => (Except.ok (), saveToken st2)

/-- Body of `create_post` after the validation step succeeded with user id
`uid` (lines 220–312): the author URN, the optional two-phase image upload,
and the `POST /ugcPosts` call.  The payload is materialised at the `ugcPosts`
call; the image branch attaches the media fields exactly when registration
(status 200, both fields present), image download (status 200) and upload
(status 201) all succeeded, and each failing step returns before any further
call is issued. -/
def createPostAuthed (content : String) (image_url : Option String)
    (uid : String) (st1 : LIState) (calls : List LICall) (w : LIWorld) :
    PostOutcome × LIState × List LICall :=
  let urn := "urn:li:person:" ++ uid
  match image_url with
  | none =>
    let pd : PostData := ⟨urn, content, "NONE", none⟩
    let calls1 := calls ++ [LICall.ugcPost pd]
    if w.ugc.status ≠ 201 then
      (PostOutcome.postCreationFailed w.ugc.status w.ugc.body, st1, calls1)
    else (PostOutcome.success, st1, calls1)
  | some _ =>
    let calls1 := calls ++ [LICall.assetRegister]
    if w.assetReg.status ≠ 200 then
      (PostOutcome.assetRegistrationFailed, st1, calls1)
    else
      match w.assetReg.asset, w.assetReg.uploadUrl with
      | some asset, some _ =>
        let calls2 := calls1 ++ [LICall.imgDownload]
        if w.imgDownload ≠ 200 then
          (PostOutcome.imageDownloadFailed, st1, calls2)
        else
          let calls3 := calls2 ++ [LICall.upload]
          if w.upload ≠ 201 then
            (PostOutcome.assetUploadFailed, st1, calls3)
          else
            let pd : PostData := ⟨urn, content, "IMAGE", some asset⟩
            let calls4 := calls3 ++ [LICall.ugcPost pd]
            if w.ugc.status ≠ 201 then
              (PostOutcome.postCreationFailed w.ugc.status w.ugc.body, st1, calls4)
            else (PostOutcome.success, st1, calls4)
      | _, _ => (PostOutcome.assetRegistrationFailed, st1, calls1)

/-- Embedding of `create_post` (lines 213–316): validate, resolve the user
URN, then run the publish sequence (`createPostAuthed`). -/
def createPost (content : String) (image_url : Option String) (st : LIState)
    (w : LIWorld) : PostOutcome × LIState × List LICall :=
  match validateTokenAndUserId st w with
  | (false, st1, calls) => (PostOutcome.notAuthenticated, st1, calls)
  | (true, st1, calls) =>
    match st1.user_id with
    | none => (PostOutcome.noUserId, st1, calls)
    | some uid => createPostAuthed content image_url uid st1 calls w

/-! ## LinkedIn service: helper lemmas -/

lemma validate_preserves_tokenFile (st : LIState) (w : LIWorld) :
    (validateTokenAndUserId st w).2.1.tokenFile = st.tokenFile := by
  obtain ⟨a, u, f⟩ := st
  unfold validateTokenAndUserId
  cases a with
  | none => rfl
  | some t =>
    by_cases h : w.userinfo.status = 200
    · simp only [h]
      cases w.userinfo.sub <;> simp
    · simp [h]

lemma validate_preserves_access_token (st : LIState) (w : LIWorld) :
    (validateTokenAndUserId st w).2.1.access_token = st.access_token := by
  obtain ⟨a, u, f⟩ := st
  unfold validateTokenAndUserId
  cases a with
  | none => rfl
  | some t =>
    by_cases h : w.userinfo.status = 200
    · simp only [h]
      cases w.userinfo.sub <;> simp
    · simp [h]

lemma validate_calls_small (st : LIState) (w : LIWorld) :
    (validateTokenAndUserId st w).2.2 = [] ∨
    (validateTokenAndUserId st w).2.2 = [LICall.userinfo] := by
  obtain ⟨a, u, f⟩ := st
  unfold validateTokenAndUserId
  cases a with
  | none => exact Or.inl rfl
  | some t =>
    by_cases h : w.userinfo.status = 200
    · simp only [h]
      cases w.userinfo.sub <;> simp
    · simp [h]

lemma validate_true_sub (st : LIState) (w : LIWorld)
    (h : (validateTokenAndUserId st w).1 = true) :
    (validateTokenAndUserId st w).2.1.user_id = w.userinfo.sub := by
  obtain ⟨a, u, f⟩ := st
  unfold validateTokenAndUserId at h ⊢
  cases a with
  | none => simp at h
  | some t =>
    by_cases h200 : w.userinfo.status = 200
    · simp only [h200] at h ⊢
      cases w.userinfo.sub <;> simp_all
    · simp [h200] at h

lemma not_ugc_in_validate_calls (st : LIState) (w : LIWorld) (pd : PostData) :
    LICall.ugcPost pd ∉ (validateTokenAndUserId st w).2.2 := by
  rcases validate_calls_small st w with h | h <;> rw [h] <;> simp

/-! ## LinkedIn service: claim theorems -/

/-- Claim C3: when no access token is stored, `create_post` fails at the
validation step with the unauthenticated outcome and issues zero network
calls — in particular neither asset registration, nor upload, nor the
content-creation POST. -/
theorem publish_without_token_fails_without_network
    (content : String) (img : Option String) (st : LIState) (w : LIWorld)
    (h : st.access_token = none) :
    (createPost content img st w).1 = PostOutcome.notAuthenticated ∧
    (createPost content img st w).2.2 = [] := by
  unfold createPost validateTokenAndUserId
  rw [h]
  exact ⟨rfl, rfl⟩

/-- Witness for C3 at a concrete token-less state and arbitrary responses. -/
theorem publish_without_token_fails_without_network_witness :
    (createPost ("hello") none ⟨none, none, none⟩
        ⟨⟨200, some ("u")⟩, ⟨200, some ("a"), some ("url")⟩, 200, 201, ⟨201, ""⟩⟩).1
      = PostOutcome.notAuthenticated ∧
    (createPost ("hello") none ⟨none, none, none⟩
        ⟨⟨200, some ("u")⟩, ⟨200, some ("a"), some ("url")⟩, 200, 201, ⟨201, ""⟩⟩).2.2
      = [] :=
  publish_without_token_fails_without_network _ _ _ _ rfl

/-- Claim C9: if the userinfo probe returns status 200 with no `sub` field,
`_validate_token_and_user_id` returns false after overwriting the in-memory
user id with the absent value, while the access token and the durable token
file are left unchanged. -/
theorem validate_missing_sub_clears_user_id
    (st : LIState) (w : LIWorld)
    (ht : st.access_token.isSome = true) (h200 : w.userinfo.status = 200)
    (hsub : w.userinfo.sub = none) :
    (validateTokenAndUserId st w).1 = false ∧
    (validateTokenAndUserId st w).2.1.user_id = none ∧
    (validateTokenAndUserId st w).2.1.access_token = st.access_token ∧
    (validateTokenAndUserId st w).2.1.tokenFile = st.tokenFile := by
  cases hat : st.access_token with
  | none => rw [hat] at ht; simp at ht
  | some t =>
    unfold validateTokenAndUserId
    rw [hat, hsub, h200]
    simp

/-- Witness for C9: a state that had a loaded user id loses it. -/
theorem validate_missing_sub_clears_user_id_witness :
    (validateTokenAndUserId ⟨some ("tok"), some ("olduid"), some ⟨some ("tok"), some ("olduid")⟩⟩
        ⟨⟨200, none⟩, ⟨200, none, none⟩, 200, 201, ⟨201, ""⟩⟩).1 = false ∧
    (validateTokenAndUserId ⟨some ("tok"), some ("olduid"), some ⟨some ("tok"), some ("olduid")⟩⟩
        ⟨⟨200, none⟩, ⟨200, none, none⟩, 200, 201, ⟨201, ""⟩⟩).2.1.user_id = none ∧
    (validateTokenAndUserId ⟨some ("tok"), some ("olduid"), some ⟨some ("tok"), some ("olduid")⟩⟩
        ⟨⟨200, none⟩, ⟨200, none, none⟩, 200, 201, ⟨201, ""⟩⟩).2.1.access_token
      = (⟨some ("tok"), some ("olduid"), some ⟨some ("tok"), some ("olduid")⟩⟩ : LIState).access_token ∧
    (validateTokenAndUserId ⟨some ("tok"), some ("olduid"), some ⟨some ("tok"), some ("olduid")⟩⟩
        ⟨⟨200, none⟩, ⟨200, none, none⟩, 200, 201, ⟨201, ""⟩⟩).2.1.tokenFile
      = (⟨some ("tok"), some ("olduid"), some ⟨some ("tok"), some ("olduid")⟩⟩ : LIState).tokenFile :=
  validate_missing_sub_clears_user_id _ _ rfl rfl rfl

/-- Claim C2: the token record reaches durable storage only when the token
call and the identity call both fully succeed; any failure of either step
(non-200 status, missing `access_token`, missing `sub`) makes the operation
raise and leaves the durable file untouched. -/
theorem exchange_persists_only_on_joint_success (st : LIState) (w : ExWorld) :
    ((exchangeCodeForToken st w).2.tokenFile ≠ st.tokenFile →
      (exchangeCodeForToken st w).1 = Except.ok () ∧
      w.token.status = 200 ∧ w.token.access_token.isSome = true ∧
      w.userinfo.status = 200 ∧ w.userinfo.sub.isSome = true) ∧
    (¬ (w.token.status = 200 ∧ w.token.access_token.isSome = true ∧
        w.userinfo.status = 200 ∧ w.userinfo.sub.isSome = true) →
      (∃ e, (exchangeCodeForToken st w).1 = Except.error e) ∧
      (exchangeCodeForToken st w).2.tokenFile = st.tokenFile) := by
  unfold exchangeCodeForToken saveToken
  by_cases h1 : w.token.status = 200
  · cases hat : w.token.access_token with
    | none => simp [h1, hat]
    | some t =>
      by_cases h2 : w.userinfo.status = 200
      · cases hsub : w.userinfo.sub with
        | none => simp [h1, hat, h2, hsub]
        | some uid => simp [h1, hat, h2, hsub]
      · simp [h1, hat, h2]
  · simp [h1]

/-- Witness for C2: a failing token call persists nothing. -/
theorem exchange_persists_only_on_joint_success_witness :
    (∃ e, (exchangeCodeForToken ⟨none, none, none⟩
        ⟨⟨500, none⟩, ⟨200, some ("u")⟩⟩).1 = Except.error e) ∧
    (exchangeCodeForToken ⟨none, none, none⟩
        ⟨⟨500, none⟩, ⟨200, some ("u")⟩⟩).2.tokenFile
      = (⟨none, none, none⟩ : LIState).tokenFile :=
  (exchange_persists_only_on_joint_success _ _).2 (by decide)

/-- Claim C10: when the token endpoint succeeds but identity resolution then
fails (non-200 userinfo status or missing `sub`), `exchange_code_for_token`
raises and the durable file is untouched, yet the in-memory access token has
already been overwritten with the newly obtained token. -/
theorem exchange_identity_failure_keeps_in_memory_token
    (st : LIState) (w : ExWorld) (t : String)
    (htok : w.token.status = 200) (hat : w.token.access_token = some t)
    (hfail : w.userinfo.status ≠ 200 ∨ w.userinfo.sub = none) :
    (∃ e, (exchangeCodeForToken st w).1 = Except.error e) ∧
    (exchangeCodeForToken st w).2.tokenFile = st.tokenFile ∧
    (exchangeCodeForToken st w).2.access_token = some t := by
  unfold exchangeCodeForToken
  rcases hfail with h | h
  · simp [htok, hat, h]
  · by_cases h2 : w.userinfo.status = 200
    · simp [htok, hat, h2, h]
    · simp [htok, hat, h2]

/-- Witness for C10: userinfo fails with 500 after a successful exchange; the
new token stays in memory, the file stays unwritten. -/
theorem exchange_identity_failure_keeps_in_memory_token_witness :
    (∃ e, (exchangeCodeForToken ⟨some ("stale"), none, none⟩
        ⟨⟨200, some ("fresh")⟩, ⟨500, none⟩⟩).1 = Except.error e) ∧
    (exchangeCodeForToken ⟨some ("stale"), none, none⟩
        ⟨⟨200, some ("fresh")⟩, ⟨500, none⟩⟩).2.tokenFile
      = (⟨some ("stale"), none, none⟩ : LIState).tokenFile ∧
    (exchangeCodeForToken ⟨some ("stale"), none, none⟩
        ⟨⟨200, some ("fresh")⟩, ⟨500, none⟩⟩).2.access_token = some ("fresh") :=
  exchange_identity_failure_keeps_in_memory_token _ _ _ rfl rfl (Or.inl (by decide))

/-- Claim C8: whenever the content-creation endpoint is actually called and
answers with a non-created status, the caller receives the post-creation
failure carrying that original status and body, and the durable token file is
unchanged by the whole publish operation. -/
theorem post_creation_failure_reports_status_and_keeps_token
    (content : String) (img : Option String) (st : LIState) (w : LIWorld)
    (hcall : ∃ pd, LICall.ugcPost pd ∈ (createPost content img st w).2.2)
    (hst : w.ugc.status ≠ 201) :
    (createPost content img st w).1
      = PostOutcome.postCreationFailed w.ugc.status w.ugc.body ∧
    (createPost content img st w).2.1.tokenFile = st.tokenFile := by
  have hTF := validate_preserves_tokenFile st w
  obtain ⟨pd0, hpd⟩ := hcall
  unfold createPost at hpd ⊢
  generalize hv : validateTokenAndUserId st w = v at hpd hTF ⊢
  obtain ⟨b, st1, calls⟩ := v
  have hnc : ∀ pd : PostData, LICall.ugcPost pd ∉ calls := by
    intro pd hmem
    have hx := not_ugc_in_validate_calls st w pd
    rw [hv] at hx
    exact hx hmem
  simp only at hTF
  cases b with
  | false =>
    dsimp only at hpd
    exact absurd hpd (hnc pd0)
  | true =>
    dsimp only at hpd ⊢
    generalize st1.user_id = uo at hpd ⊢
    cases uo with
    | none =>
      dsimp only at hpd
      exact absurd hpd (hnc pd0)
    | some uid =>
      dsimp only at hpd ⊢
      cases img with
      | none =>
        simp [createPostAuthed, hst]
        exact hTF
      | some iu =>
        by_cases hreg : w.assetReg.status = 200
        · cases hA : w.assetReg.asset with
          | none =>
            simp [createPostAuthed, hreg, hA] at hpd
            exact absurd hpd (hnc pd0)
          | some asset =>
            cases hU : w.assetReg.uploadUrl with
            | none =>
              simp [createPostAuthed, hreg, hA, hU] at hpd
              exact absurd hpd (hnc pd0)
            | some uurl =>
              by_cases hdl : w.imgDownload = 200
              · by_cases hup : w.upload = 201
                · simp [createPostAuthed, hreg, hA, hU, hdl, hup, hst]
                  exact hTF
                · simp [createPostAuthed, hreg, hA, hU, hdl, hup] at hpd
                  exact absurd hpd (hnc pd0)
              · simp [createPostAuthed, hreg, hA, hU, hdl] at hpd
                exact absurd hpd (hnc pd0)
        · simp [createPostAuthed, hreg] at hpd
          exact absurd hpd (hnc pd0)

/-- Concrete state for the C8 witness: a stored valid token. -/
def c8st : LIState := ⟨some ("tok"), some ("uid"), some ⟨some ("tok"), some ("uid")⟩⟩

/-- Concrete world for the C8 witness: valid session, content endpoint
answers 403. -/
def c8w : LIWorld :=
  ⟨⟨200, some ("uid")⟩, ⟨200, some ("a"), some ("up")⟩, 200, 201, ⟨403, "forbidden"⟩⟩

/-- Witness for C8: the 403 scenario of the specification. -/
theorem post_creation_failure_reports_status_and_keeps_token_witness :
    (createPost ("hello world") none c8st c8w).1
      = PostOutcome.postCreationFailed 403 ("forbidden") ∧
    (createPost ("hello world") none c8st c8w).2.1.tokenFile = c8st.tokenFile :=
  post_creation_failure_reports_status_and_keeps_token ("hello world") none c8st c8w
    ⟨⟨"urn:li:person:uid", "hello world", "NONE", none⟩, by decide⟩ (by decide)

/-- Claim C1: for a publish call with an image source, a `ugcPosts` payload
carries an asset identifier only if asset registration succeeded with that
identifier and the upload returned 201; and when the upload step fails, the
outcome is the upload failure and no content-creation call is ever issued. -/
theorem image_asset_in_payload_requires_upload_success
    (content img : String) (st : LIState) (w : LIWorld) :
    (∀ pd a, LICall.ugcPost pd ∈ (createPost content (some img) st w).2.2 →
        pd.media = some a →
        w.assetReg.status = 200 ∧ w.assetReg.asset = some a ∧
        w.assetReg.uploadUrl.isSome = true ∧ w.upload = 201) ∧
    (LICall.upload ∈ (createPost content (some img) st w).2.2 → w.upload ≠ 201 →
      (createPost content (some img) st w).1 = PostOutcome.assetUploadFailed ∧
      ∀ pd, LICall.ugcPost pd ∉ (createPost content (some img) st w).2.2) := by
  have hvc := validate_calls_small st w
  unfold createPost
  generalize hv : validateTokenAndUserId st w = v at hvc ⊢
  obtain ⟨b, st1, calls⟩ := v
  simp only at hvc
  have hncU : LICall.upload ∉ calls := by
    rcases hvc with h | h <;> rw [h] <;> simp
  have hncG : ∀ pd : PostData, LICall.ugcPost pd ∉ calls := by
    intro pd
    rcases hvc with h | h <;> rw [h] <;> simp
  cases b with
  | false =>
    exact ⟨fun pd a hpd _ => absurd hpd (hncG pd),
           fun hup _ => absurd hup hncU⟩
  | true =>
    dsimp only
    generalize st1.user_id = uo
    cases uo with
    | none =>
      exact ⟨fun pd a hpd _ => absurd hpd (hncG pd),
             fun hup _ => absurd hup hncU⟩
    | some uid =>
      dsimp only
      by_cases hreg : w.assetReg.status = 200
      · cases hA : w.assetReg.asset with
        | none =>
          have hE : createPostAuthed content (some img) uid st1 calls w
              = (PostOutcome.assetRegistrationFailed, st1,
                 calls ++ [LICall.assetRegister]) := by
            simp [createPostAuthed, hreg, hA]
          rw [hE]
          refine ⟨?_, ?_⟩
          · intro pd a hpd _
            simp only [List.mem_append, List.mem_singleton] at hpd
            rcases hpd with hpd | hpd
            · exact absurd hpd (hncG pd)
            · simp at hpd
          · intro hup _
            simp only [List.mem_append, List.mem_singleton] at hup
            rcases hup with hup | hup
            · exact absurd hup hncU
            · simp at hup
        | some asset =>
          cases hU : w.assetReg.uploadUrl with
          | none =>
            have hE : createPostAuthed content (some img) uid st1 calls w
                = (PostOutcome.assetRegistrationFailed, st1,
                   calls ++ [LICall.assetRegister]) := by
              simp [createPostAuthed, hreg, hA, hU]
            rw [hE]
            refine ⟨?_, ?_⟩
            · intro pd a hpd _
              simp only [List.mem_append, List.mem_singleton] at hpd
              rcases hpd with hpd | hpd
              · exact absurd hpd (hncG pd)
              · simp at hpd
            · intro hup _
              simp only [List.mem_append, List.mem_singleton] at hup
              rcases hup with hup | hup
              · exact absurd hup hncU
              · simp at hup
          | some uurl =>
            by_cases hdl : w.imgDownload = 200
            · by_cases hup : w.upload = 201
              · have hE : createPostAuthed content (some img) uid st1 calls w
                    = (if w.ugc.status ≠ 201 then
                        (PostOutcome.postCreationFailed w.ugc.status w.ugc.body, st1,
                         calls ++ [LICall.assetRegister, LICall.imgDownload,
                           LICall.upload,
                           LICall.ugcPost ⟨"urn:li:person:" ++ uid, content,
                             "IMAGE", some asset⟩])
                       else
                        (PostOutcome.success, st1,
                         calls ++ [LICall.assetRegister, LICall.imgDownload,
                           LICall.upload,
                           LICall.ugcPost ⟨"urn:li:person:" ++ uid, content,
                             "IMAGE", some asset⟩])) := by
                  by_cases hugc : w.ugc.status = 201 <;>
                    simp [createPostAuthed, hreg, hA, hU, hdl, hup, hugc]
                rw [hE]
                refine ⟨?_, ?_⟩
                · intro pd a hpd hmedia
                  have hpd2 : LICall.ugcPost pd ∈
                      calls ++ [LICall.assetRegister, LICall.imgDownload,
                        LICall.upload,
                        LICall.ugcPost ⟨"urn:li:person:" ++ uid, content,
                          "IMAGE", some asset⟩] := by
                    by_cases hugc : w.ugc.status = 201 <;>
                      simp [hugc] at hpd <;> simpa using hpd
                  simp only [List.mem_append, List.mem_cons,
                    List.mem_singleton, List.not_mem_nil, or_false] at hpd2
                  rcases hpd2 with hpd2 | hpd2 | hpd2 | hpd2 | hpd2
                  · exact absurd hpd2 (hncG pd)
                  · simp at hpd2
                  · simp at hpd2
                  · simp at hpd2
                  · have hpdeq : pd = ⟨"urn:li:person:" ++ uid, content,
                        "IMAGE", some asset⟩ := by
                      injection hpd2
                    subst hpdeq
                    simp only [PostData.media] at hmedia
                    have ha : asset = a := by
                      injection hmedia
                    subst ha
                    exact ⟨hreg, rfl, rfl, hup⟩
                · intro _ hne
                  exact absurd hup hne
              · have hE : createPostAuthed content (some img) uid st1 calls w
                    = (PostOutcome.assetUploadFailed, st1,
                       calls ++ [LICall.assetRegister, LICall.imgDownload,
                         LICall.upload]) := by
                  simp [createPostAuthed, hreg, hA, hU, hdl, hup]
                rw [hE]
                refine ⟨?_, ?_⟩
                · intro pd a hpd _
                  simp only [List.mem_append, List.mem_cons,
                    List.mem_singleton, List.not_mem_nil, or_false] at hpd
                  rcases hpd with hpd | hpd | hpd | hpd
                  · exact absurd hpd (hncG pd)
                  · simp at hpd
                  · simp at hpd
                  · simp at hpd
                · intro _ _
                  refine ⟨rfl, ?_⟩
                  intro pd hpd
                  simp only [List.mem_append, List.mem_cons,
                    List.mem_singleton, List.not_mem_nil, or_false] at hpd
                  rcases hpd with hpd | hpd | hpd | hpd
                  · exact absurd hpd (hncG pd)
                  · simp at hpd
                  · simp at hpd
                  · simp at hpd
            · have hE : createPostAuthed content (some img) uid st1 calls w
                  = (PostOutcome.imageDownloadFailed, st1,
                     calls ++ [LICall.assetRegister, LICall.imgDownload]) := by
                simp [createPostAuthed, hreg, hA, hU, hdl]
              rw [hE]
              refine ⟨?_, ?_⟩
              · intro pd a hpd _
                simp only [List.mem_append, List.mem_cons,
                  List.mem_singleton, List.not_mem_nil, or_false] at hpd
                rcases hpd with hpd | hpd | hpd
                · exact absurd hpd (hncG pd)
                · simp at hpd
                · simp at hpd
              · intro hup _
                simp only [List.mem_append, List.mem_cons,
                  List.mem_singleton, List.not_mem_nil, or_false] at hup
                rcases hup with hup | hup | hup
                · exact absurd hup hncU
                · simp at hup
                · simp at hup
      · have hE : createPostAuthed content (some img) uid st1 calls w
            = (PostOutcome.assetRegistrationFailed, st1,
               calls ++ [LICall.assetRegister]) := by
          simp [createPostAuthed, hreg]
        rw [hE]
        refine ⟨?_, ?_⟩
        · intro pd a hpd _
          simp only [List.mem_append, List.mem_singleton] at hpd
          rcases hpd with hpd | hpd
          · exact absurd hpd (hncG pd)
          · simp at hpd
        · intro hup _
          simp only [List.mem_append, List.mem_singleton] at hup
          rcases hup with hup | hup
          · exact absurd hup hncU
          · simp at hup

/-- Concrete state for the C1 witness. -/
def c1st : LIState := ⟨some ("tok"), some ("uid"), none⟩

/-- Concrete world for the C1 witness: registration and download succeed, the
upload PUT answers 500. -/
def c1w : LIWorld :=
  ⟨⟨200, some ("uid")⟩, ⟨200, some ("a1"), some ("up")⟩, 200, 500, ⟨201, ""⟩⟩

/-- Witness for C1: a failing upload aborts the pipeline before any
content-creation call. -/
theorem image_asset_in_payload_requires_upload_success_witness :
    (createPost ("hi") (some ("img.jpg")) c1st c1w).1
      = PostOutcome.assetUploadFailed ∧
    ∀ pd, LICall.ugcPost pd ∉ (createPost ("hi") (some ("img.jpg")) c1st c1w).2.2 :=
  (image_asset_in_payload_requires_upload_success ("hi") ("img.jpg") c1st c1w).2
    (by decide) (by decide)

/-! ## Generation orchestrator: data model -/

/-- The personality configuration fields that `deepseek_service.py` reads.
The scalar traits are Python floats on a 0–1 scale, modelled as rationals;
`response_templates` is the content-type-keyed template table (`dict.get`
modelled as a partial map). -/
structure Personality where
  formality : ℚ
  enthusiasm : ℚ
  humor : ℚ
  expertise_level : ℚ
  response_templates : List Char → Option (List Char)

/-- The user-context fields that the prompt builders splice in. -/
structure UserContext where
  education_level : List Char
  major : List Char
  university : List Char
  academic_interests : List (List Char)
  skills : List (List Char)
  career_goals : List (List Char)
  target_companies : List (List Char)
  internship_experience : List (List Char)
  personal_brand : List Char
  writing_style : List Char
  content_focus : List (List Char)
  tone : List Char
  recent_topics : List (List Char)
  preferred_hashtags : List (List Char)

/-- The dictionary `ContentAnalyzer.analyze_content` returns, with every key
except `type` optional: the prompt builder indexes them with `[...]`, and a
missing key raises `KeyError` into the surrounding handler. -/
structure ContentInfo where
  ctype : List Char
  title : Option (List Char)
  description : Option (List Char)
  key_points : Option (List (List Char))
  topic : Option (List Char)
  content : Option (List Char)

/-- Outcome of the single provider call in `_generate_with_deepseek`: one
constructor per branch of the source (success, non-200 status, body that is
not JSON, JSON without usable `choices`, and a raised exception / timeout). -/
inductive ProviderOutcome where
  | ok (content : List Char)
  | httpError (status : Nat)
  | badJson
  | missingChoices
  | exc
deriving DecidableEq

/-- Oracle for the orchestrator's collaborators: the content analyzer (may
throw), the image service keyed by query (may throw), and the provider. -/
structure GenWorld where
  analyzer : Except Unit ContentInfo
  image : List Char → Except Unit (Option (List Char))
  provider : ProviderOutcome

/-- One outbound call of the orchestrator. -/
inductive GenCall where
  | analyzerCall (url : List Char)
  | imageCall (query : List Char)
  | providerCall (prompt : List Char)
deriving DecidableEq

/-- Result dictionary of `generate_post`. -/
structure GenResult where
  post : List Char
  image_url : Option (List Char)
deriving DecidableEq

/-! ## Generation orchestrator: prompt construction -/

/-- The `user_context_info` f-string block (identical in both prompt
builders, lines 104–123 and 200–219 of `deepseek_service.py`). -/
def userContextInfo (uc : UserContext) : List Char :=
  "\n        Academic Context:\n        - Education: ".data ++ uc.education_level
  ++ " in ".data ++ uc.major ++ " at ".data ++ uc.university
  ++ "\n        - Academic Interests: ".data ++ joinComma uc.academic_interests
  ++ "\n        - Skills: ".data ++ joinComma uc.skills
  ++ "\n        \n        Professional Context:\n        - Career Goals: ".data
  ++ joinComma uc.career_goals
  ++ "\n        - Target Companies: ".data ++ joinComma uc.target_companies
  ++ "\n        - Internship Experience: ".data ++ joinComma uc.internship_experience
  ++ "\n        \n        Content Style:\n        - Personal Brand: ".data
  ++ uc.personal_brand
  ++ "\n        - Writing Style: ".data ++ uc.writing_style
  ++ "\n        - Content Focus: ".data ++ joinComma uc.content_focus
  ++ "\n        - Tone: ".data ++ uc.tone
  ++ "\n        \n        Recent Topics: ".data ++ joinComma uc.recent_topics
  ++ "\n        Preferred Hashtags: ".data ++ joinComma uc.preferred_hashtags
  ++ "\n        ".data

/-- The `commentary_section` block (empty unless commentary is truthy). -/
def commentarySection (commentary : Option (List Char)) : List Char :=
  if pyTruthy commentary then
    "\n            Personal Commentary:\n            ".data ++ commentary.getD []
      ++ "\n            ".data
  else []

/-- Guidelines and personality-trait header shared verbatim by the article
and video templates (12-space indentation). -/
def guidelines12 : List Char :=
  ("\n            \n            Guidelines:"
    ++ "\n            1. Write from a student\x27s perspective with strong technical understanding"
    ++ "\n            2. Focus on learning insights and industry implications"
    ++ "\n            3. Keep questions to a minimum (maximum 1 question if needed)"
    ++ "\n            4. Include relevant technical details that showcase your knowledge"
    ++ "\n            5. End with a clear call to action or key takeaway"
    ++ "\n            6. Use a mix of technical and educational language"
    ++ "\n            7. Reference your academic background when relevant"
    ++ "\n            8. Include 2-3 relevant hashtags from the preferred list"
    ++ "\n            \n            Personality traits to incorporate:"
    ++ "\n            - Formality level: ").data

/-- The four spliced personality traits closing the article/video templates. -/
def personaTail12 (p : Personality) : List Char :=
  ratStr p.formality ++ "\n            - Enthusiasm level: ".data
  ++ ratStr p.enthusiasm ++ "\n            - Humor level: ".data
  ++ ratStr p.humor ++ "\n            - Expertise level: ".data
  ++ ratStr p.expertise_level ++ "\n            ".data

/-- Embedding of `_create_description_based_prompt` (lines 197–252). -/
def createDescriptionBasedPrompt (p : Personality) (uc : UserContext)
    (description commentary : Option (List Char)) : List Char :=
  "\n        Create a LinkedIn post about:\n        ".data ++ pyStrOpt description
  ++ "\n        \n        ".data ++ userContextInfo uc
  ++ "\n        \n        ".data ++ commentarySection commentary
  ++ ("\n        \n        Guidelines:"
      ++ "\n        1. Write from a student\x27s perspective with strong technical understanding"
      ++ "\n        2. Focus on learning insights and industry implications"
      ++ "\n        3. Keep questions to a minimum (maximum 1 question if needed)"
      ++ "\n        4. Include relevant technical details that showcase your knowledge"
      ++ "\n        5. End with a clear call to action or key takeaway"
      ++ "\n        6. Use a mix of technical and educational language"
      ++ "\n        7. Reference your academic background when relevant"
      ++ "\n        8. Include 2-3 relevant hashtags from the preferred list"
      ++ "\n        \n        Personality traits to incorporate:"
      ++ "\n        - Formality level: ").data
  ++ ratStr p.formality ++ "\n        - Enthusiasm level: ".data
  ++ ratStr p.enthusiasm ++ "\n        - Humor level: ".data
  ++ ratStr p.humor ++ "\n        - Expertise level: ".data
  ++ ratStr p.expertise_level ++ "\n        ".data

/-- Embedding of `_create_content_based_prompt` (lines 98–195).  A `KeyError`
on a missing dictionary field is returned as `Except.error` and lands in the
caller's handler. -/
def createContentBasedPrompt (p : Personality) (uc : UserContext)
    (info : ContentInfo) (commentary : Option (List Char)) :
    Except Unit (List Char) :=
  let template := (p.response_templates info.ctype).getD []
  if info.ctype = ("article").data then
    match info.title, info.key_points, info.topic with
    | some t, some kps, some tp =>
      Except.ok
        ("\n            Create a LinkedIn post about this article:\n            Title: ".data
          ++ t ++ "\n            Key Points: ".data ++ joinComma kps
          ++ "\n            Topic: ".data ++ tp
          ++ "\n            \n            ".data ++ userContextInfo uc
          ++ "\n            \n            ".data ++ commentarySection commentary
          ++ "\n            \n            Use this template as a base:\n            ".data
          ++ template ++ guidelines12 ++ personaTail12 p)
    | _, _, _ => Except.error ()
  else if info.ctype = ("video").data then
    match info.title, info.description with
    | some t, some d =>
      Except.ok
        ("\n            Create a LinkedIn post about this video:\n            Title: ".data
          ++ t ++ "\n            Description: ".data ++ d
          ++ "\n            \n            ".data ++ userContextInfo uc
          ++ "\n            \n            ".data ++ commentarySection commentary
          ++ "\n            \n            Use this template as a base:\n            ".data
          ++ template ++ guidelines12 ++ personaTail12 p)
    | _, _ => Except.error ()
  else
    match info.content with
    | some c => Except.ok (createDescriptionBasedPrompt p uc (some c) commentary)
    | none => Except.error ()

/-! ## Generation orchestrator: provider call, fallback, formatting -/

/-- Fixed fallback for prompts mentioning an article. -/
def articleFallback : List Char :=
  ("I found this article interesting and wanted to share it with my network. "
    ++ "The key insights are worth discussing. What are your thoughts?").data

/-- Fixed fallback for prompts mentioning a video. -/
def videoFallback : List Char :=
  ("Just watched this video and found it insightful. The content really makes "
    ++ "you think about the future of technology. Has anyone else seen this?").data

/-- Fixed generic fallback. -/
def genericFallback : List Char :=
  ("Excited to share this content with my network. The insights are valuable "
    ++ "for anyone interested in technology and innovation. What are your thoughts?").data

/-- Embedding of `_generate_fallback_response` (lines 329–336). -/
def generateFallbackResponse (prompt : List Char) : List Char :=
  if containsL ("article").data (toLowerL prompt) then articleFallback
  else if containsL ("video").data (toLowerL prompt) then videoFallback
  else genericFallback

/-- Embedding of `_generate_with_deepseek` (lines 254–327): the provider's
content on success, the keyword-selected fallback on every failure branch. -/
def generateWithDeepseek (po : ProviderOutcome) (prompt : List Char) : List Char :=
  match po with
  | ProviderOutcome.ok c => c
  | _ => generateFallbackResponse prompt

/-- Stage 1 of `_format_post`: strip bold-markdown markers. -/
def stripBold (s : List Char) : List Char := replaceL ("**").data [] s

/-- Stage 2 of `_format_post`: prefix one emoji chosen by the first matching
keyword, with the nested `learning` replacement inside the AI branch. -/
def addTopicEmoji (s : List Char) : List Char :=
  if containsL ("AI").data s || containsL ("artificial intelligence").data (toLowerL s) then
    if containsL ("learning").data (toLowerL (("🤖 ").data ++ s)) then
      replaceL ("learning").data ("learning 🧠").data (("🤖 ").data ++ s)
    else ("🤖 ").data ++ s
  else if containsL ("tech").data (toLowerL s) || containsL ("technology").data (toLowerL s) then
    ("💻 ").data ++ s
  else if containsL ("innovation").data (toLowerL s) then ("💡 ").data ++ s
  else if containsL ("data").data (toLowerL s) then ("📊 ").data ++ s
  else if containsL ("research").data (toLowerL s) then ("🔬 ").data ++ s
  else if containsL ("open source").data (toLowerL s) then ("🌐 ").data ++ s
  else if containsL ("student").data (toLowerL s) || containsL ("education").data (toLowerL s) then
    ("🎓 ").data ++ s
  else s

/-- Stage 3 of `_format_post`: the enthusiasm-dependent punctuation
replacement (lines 361–367). -/
def punctStage (enthusiasm : ℚ) (s : List Char) : List Char :=
  if qGtB enthusiasm 7 10 then
    replaceL ("?").data ("? 🤔").data (replaceL (".").data ("! ✨").data s)
  else if qGtB enthusiasm 4 10 then
    replaceL ("?").data ("? 💭").data (replaceL (".").data ("! 👏").data s)
  else s

/-- First brand replacement of `_format_post` (`Meta`). -/
def brandMeta (s : List Char) : List Char :=
  if containsL ("meta").data (toLowerL s) || containsL ("facebook").data (toLowerL s) then
    replaceL ("Meta").data ("Meta 🚀").data s
  else s

/-- Second brand replacement of `_format_post` (`model`). -/
def brandModel (s : List Char) : List Char :=
  if containsL ("model").data (toLowerL s) then
    replaceL ("model").data ("model 🤖").data s
  else s

/-- Third brand replacement of `_format_post` (`release`). -/
def brandRelease (s : List Char) : List Char :=
  if containsL ("release").data (toLowerL s) then
    replaceL ("release").data ("release 🎉").data s
  else s

/-- Stage 4 of `_format_post`: the three sequential brand-keyword literal
replacements. -/
def brandStage (s : List Char) : List Char :=
  brandRelease (brandModel (brandMeta s))

/-- Stage 5 of `_format_post`: append the reference line when no marker is
present and the `last_content_url` attribute exists (`some v`); the attribute
value itself may be `None` (`v = none`), which Python renders as the string
`None`. -/
def refStage (lastUrlAttr : Option (Option (List Char))) (s : List Char) : List Char :=
  if !containsL ("Read more:").data s && !containsL ("Check it out:").data s
      && !containsL ("Link:").data s then
    match lastUrlAttr with
    | some v => s ++ ("\n\nRead more: ").data ++ pyStrOpt v
    | none => s
  else s

/-- Embedding of `_format_post` (lines 338–383): the five stages in source
order, closed by `str.strip`. -/
def formatPost (enthusiasm : ℚ) (lastUrlAttr : Option (Option (List Char)))
    (post : List Char) : List Char :=
  stripL (refStage lastUrlAttr (brandStage (punctStage enthusiasm (addTopicEmoji (stripBold post)))))

/-! ## Generation orchestrator: `generate_post` -/

/-- Shared tail of every successful path of `generate_post`: call the
provider, format the result, pair it with the image URL. -/
def genMain (p : Personality) (lastUrlAttr : Option (Option (List Char)))
    (po : ProviderOutcome) (prompt : List Char) (imgUrl : Option (List Char))
    (callsSoFar : List GenCall) : GenResult × List GenCall :=
  let calls := callsSoFar ++ [GenCall.providerCall prompt]
  let post := generateWithDeepseek po prompt
  ({ post := formatPost p.enthusiasm lastUrlAttr post, image_url := imgUrl }, calls)

/-- The outer `except` of `generate_post` (lines 90–96): the hard-coded
fallback dictionary with the commentary and URL spliced in. -/
def genOuterFallback (content_url commentary : Option (List Char))
    (callsSoFar : List GenCall) : GenResult × List GenCall :=
  ({ post := ("Excited to share this content! ").data
        ++ (if pyTruthy commentary then commentary.getD [] else [])
        ++ ("\n\nRead more: ").data
        ++ (if pyTruthy content_url then content_url.getD []
            else ("Check out the link in comments").data),
     image_url := none }, callsSoFar)

/-- The inner `except` of the content branch (lines 72–76): rebuild the
prompt from the raw URL and retry the image lookup with the generic topic;
an exception from that lookup escapes to the outer handler. -/
def genContentHandler (p : Personality) (uc : UserContext) (w : GenWorld)
    (content_url commentary : Option (List Char)) (url : List Char)
    (calls : List GenCall) : GenResult × List GenCall :=
  let prompt2 := createDescriptionBasedPrompt p uc
    (some (("Content from: ").data ++ url)) commentary
  let calls2 := calls ++ [GenCall.imageCall ("technology").data]
  match w.image ("technology").data with
  | Except.ok imgUrl => genMain p (some (some url)) w.provider prompt2 imgUrl calls2
  | Except.error _ => genOuterFallback content_url commentary calls2

/-- Embedding of `generate_post` (lines 59–96). -/
def generatePost (p : Personality) (uc : UserContext) (w : GenWorld)
    (content_url description commentary : Option (List Char)) :
    GenResult × List GenCall :=
  if pyTruthy content_url then
    let url := content_url.getD []
    let calls0 := [GenCall.analyzerCall url]
    match w.analyzer with
    | Except.ok info =>
      match createContentBasedPrompt p uc info commentary with
      | Except.ok prompt =>
        let topic := info.topic.getD ("technology").data
        let calls1 := calls0 ++ [GenCall.imageCall topic]
        match w.image topic with
        | Except.ok imgUrl => genMain p (some (some url)) w.provider prompt imgUrl calls1
        | Except.error _ => genContentHandler p uc w content_url commentary url calls1
      | Except.error _ => genContentHandler p uc w content_url commentary url calls0
    | Except.error _ => genContentHandler p uc w content_url commentary url calls0
  else
    let prompt := createDescriptionBasedPrompt p uc description commentary
    let q := if pyTruthy description then description.getD [] else ("technology").data
    let calls0 := [GenCall.imageCall q]
    match w.image q with
    | Except.ok imgUrl => genMain p (some none) w.provider prompt imgUrl calls0
    | Except.error _ => genOuterFallback content_url commentary calls0

/-! ## Lemmas about the string model -/

lemma containsL_nil_pat (s : List Char) : containsL [] s = true := by
  cases s <;> simp [containsL, List.isPrefixOf]

lemma containsL_cons_eq (pat : List Char) (c : Char) (cs : List Char) :
    containsL pat (c :: cs) = (pat.isPrefixOf (c :: cs) || containsL pat cs) := rfl

lemma containsL_of_tail {pat cs : List Char} (c : Char)
    (h : containsL pat cs = true) : containsL pat (c :: cs) = true := by
  rw [containsL_cons_eq, h, Bool.or_true]

lemma containsL_append_right (pat a b : List Char)
    (h : containsL pat b = true) : containsL pat (a ++ b) = true := by
  induction a with
  | nil => simpa using h
  | cons c cs ih =>
    rw [List.cons_append]
    exact containsL_of_tail c ih

lemma isPrefixOf_append_of_isPrefixOf (pat a b : List Char)
    (h : pat.isPrefixOf a = true) : pat.isPrefixOf (a ++ b) = true := by
  rw [List.isPrefixOf_iff_prefix] at h ⊢
  exact h.trans (List.prefix_append a b)

lemma containsL_append_left (pat a b : List Char)
    (h : containsL pat a = true) : containsL pat (a ++ b) = true := by
  induction a with
  | nil =>
    have hp : pat = [] := by
      cases pat with
      | nil => rfl
      | cons x xs => simp [containsL] at h
    subst hp
    exact containsL_nil_pat b
  | cons c cs ih =>
    rw [containsL_cons_eq] at h
    rw [List.cons_append, containsL_cons_eq]
    rcases Bool.or_eq_true_iff.1 h with hp | hr
    · have hpp := isPrefixOf_append_of_isPrefixOf pat (c :: cs) b hp
      rw [List.cons_append] at hpp
      rw [hpp]
      simp
    · rw [ih hr, Bool.or_true]

lemma mem_of_containsL {pat s : List Char} {c : Char}
    (h : containsL pat s = true) (hc : c ∈ pat) : c ∈ s := by
  induction s with
  | nil =>
    cases pat with
    | nil => simp at hc
    | cons x xs => simp [containsL] at h
  | cons a as ih =>
    rw [containsL_cons_eq] at h
    rcases Bool.or_eq_true_iff.1 h with hp | hr
    · exact (List.isPrefixOf_iff_prefix.1 hp).subset hc
    · exact List.mem_cons_of_mem a (ih hr)

lemma containsL_drop_imp (pat s : List Char) (n : Nat)
    (h : containsL pat (s.drop n) = true) : containsL pat s = true := by
  have h2 := containsL_append_right pat (s.take n) (s.drop n) h
  rwa [List.take_append_drop] at h2

lemma containsL_tail_false {pat : List Char} {c : Char} {cs : List Char}
    (h : containsL pat (c :: cs) = false) : containsL pat cs = false := by
  rw [containsL_cons_eq] at h
  exact (Bool.or_eq_false_iff.1 h).2

lemma isPrefixOf_false_of_containsL_false {pat : List Char} {c : Char} {cs : List Char}
    (h : containsL pat (c :: cs) = false) : pat.isPrefixOf (c :: cs) = false := by
  rw [containsL_cons_eq] at h
  exact (Bool.or_eq_false_iff.1 h).1

lemma mem_of_head?_eq {l : List Char} {c : Char} (h : l.head? = some c) : c ∈ l := by
  cases l <;> simp_all

lemma mem_of_getLast?_eq {l : List Char} {c : Char} (h : l.getLast? = some c) : c ∈ l := by
  induction l with
  | nil => simp at h
  | cons a as ih =>
    cases as with
    | nil => simp_all
    | cons b bs =>
      rw [List.getLast?_cons_cons] at h
      exact List.mem_cons_of_mem a (ih h)

lemma isPrefixOf_pair {x y c : Char} {l : List Char} :
    List.isPrefixOf [x, y] (c :: l) = true ↔ x = c ∧ l.head? = some y := by
  cases l with
  | nil => simp [List.isPrefixOf]
  | cons d ds =>
    simp only [List.isPrefixOf, Bool.and_eq_true, beq_iff_eq, and_true,
      List.head?_cons, Option.some.injEq]
    exact and_congr_right fun _ => eq_comm

lemma containsL_pair_append (x y : Char) (a b : List Char)
    (h : containsL [x, y] (a ++ b) = true) :
    containsL [x, y] a = true ∨ containsL [x, y] b = true ∨
      (a.getLast? = some x ∧ b.head? = some y) := by
  induction a with
  | nil =>
    right; left
    simpa using h
  | cons c a2 ih =>
    rw [List.cons_append, containsL_cons_eq] at h
    rcases Bool.or_eq_true_iff.1 h with hp | hr
    · rcases isPrefixOf_pair.1 hp with ⟨hxc, hhead⟩
      cases a2 with
      | nil =>
        right; right
        refine ⟨by simp [hxc.symm], ?_⟩
        simpa using hhead
      | cons d a3 =>
        left
        rw [containsL_cons_eq]
        have : List.isPrefixOf [x, y] (c :: d :: a3) = true := by
          rw [isPrefixOf_pair]
          refine ⟨hxc, ?_⟩
          simpa using hhead
        rw [this]
        simp
    · rcases ih hr with h1 | h2 | ⟨hl, hh⟩
      · left; exact containsL_of_tail c h1
      · right; left; exact h2
      · right; right
        cases a2 with
        | nil => simp at hl
        | cons d a3 =>
          refine ⟨?_, hh⟩
          rw [List.getLast?_cons_cons]
          exact hl

lemma noBold_append {a b : List Char}
    (ha : containsL ("**").data a = false) (hb : containsL ("**").data b = false)
    (hj : a.getLast? ≠ some '*' ∨ b.head? ≠ some '*') :
    containsL ("**").data (a ++ b) = false := by
  cases hcc : containsL ("**").data (a ++ b) with
  | false => rfl
  | true =>
    exfalso
    have hds : ("**").data = ['*', '*'] := rfl
    rw [hds] at hcc ha hb
    rcases containsL_pair_append '*' '*' a b hcc with h1 | h2 | ⟨hl, hh⟩
    · rw [h1] at ha; simp at ha
    · rw [h2] at hb; simp at hb
    · rcases hj with hj | hj
      · exact hj hl
      · exact hj hh

lemma replAux_skip (pat rep : List Char) :
    ∀ (k : Nat) (t : List Char), replAux pat rep t k = replAux pat rep (t.drop k) 0 := by
  intro k
  induction k with
  | zero => intro t; rfl
  | succ k ih =>
    intro t
    cases t with
    | nil => simp [replAux]
    | cons c cs =>
      show replAux pat rep cs k = _
      rw [ih cs]
      rfl

lemma replaceL_nil (pat rep : List Char) : replaceL pat rep [] = [] := by
  unfold replaceL
  by_cases h : pat.isEmpty <;> simp [h, replAux]

lemma replaceL_cons_pos {pat : List Char} (rep : List Char) {c : Char} {cs : List Char}
    (hpre : pat.isPrefixOf (c :: cs) = true) (hne : pat ≠ []) :
    replaceL pat rep (c :: cs) = rep ++ replaceL pat rep ((c :: cs).drop pat.length) := by
  have hie : pat.isEmpty = false := by
    cases pat with
    | nil => exact absurd rfl hne
    | cons x xs => rfl
  unfold replaceL
  rw [hie]
  show (if pat.isPrefixOf (c :: cs) = true then
      rep ++ replAux pat rep cs (pat.length - 1)
    else c :: replAux pat rep cs 0) = _
  rw [if_pos hpre, replAux_skip]
  have hlen : 1 ≤ pat.length := by
    cases pat with
    | nil => exact absurd rfl hne
    | cons x xs => simp
  have hdrop : cs.drop (pat.length - 1) = (c :: cs).drop pat.length := by
    cases hp : pat.length with
    | zero => omega
    | succ m => simp [hp]
  rw [hdrop]
  simp

lemma replaceL_cons_neg {pat : List Char} (rep : List Char) {c : Char} {cs : List Char}
    (hpre : pat.isPrefixOf (c :: cs) = false) :
    replaceL pat rep (c :: cs) = c :: replaceL pat rep cs := by
  have hie : pat.isEmpty = false := by
    cases pat with
    | nil => simp [List.isPrefixOf] at hpre
    | cons x xs => rfl
  unfold replaceL
  rw [hie]
  show (if pat.isPrefixOf (c :: cs) = true then
      rep ++ replAux pat rep cs (pat.length - 1)
    else c :: replAux pat rep cs 0) = _
  rw [if_neg (by rw [hpre]; exact Bool.false_ne_true)]
  simp

lemma replaceL_head (pat rep s : List Char) (hrep : rep ≠ []) :
    (replaceL pat rep s).head? = none ∨ (replaceL pat rep s).head? = s.head? ∨
    (replaceL pat rep s).head? = rep.head? := by
  by_cases hpat : pat = []
  · subst hpat
    unfold replaceL
    simp
  · cases s with
    | nil => left; rw [replaceL_nil]; rfl
    | cons c cs =>
      cases hpre : pat.isPrefixOf (c :: cs) with
      | true =>
        right; right
        rw [replaceL_cons_pos rep hpre hpat]
        cases rep with
        | nil => exact absurd rfl hrep
        | cons r rs => rfl
      | false =>
        right; left
        rw [replaceL_cons_neg rep hpre]
        rfl

lemma noBold_of_no_star {l : List Char} (h : '*' ∉ l) :
    containsL ("**").data l = false := by
  cases hcc : containsL ("**").data l with
  | false => rfl
  | true =>
    exact absurd (mem_of_containsL hcc (by decide)) h

lemma replace_preserves_noBold_aux :
    ∀ (n : Nat) (pat rep s : List Char), s.length ≤ n → rep ≠ [] → '*' ∉ rep →
      containsL ("**").data s = false →
      containsL ("**").data (replaceL pat rep s) = false := by
  intro n
  induction n with
  | zero =>
    intro pat rep s hlen _ _ _
    have hs : s = [] := List.eq_nil_of_length_eq_zero (Nat.le_zero.1 hlen)
    subst hs
    rw [replaceL_nil]
    rfl
  | succ n ih =>
    intro pat rep s hlen hrep hstar hs
    cases s with
    | nil =>
      rw [replaceL_nil]
      rfl
    | cons c cs =>
      by_cases hpat : pat = []
      · subst hpat
        unfold replaceL
        simpa using hs
      · cases hpre : pat.isPrefixOf (c :: cs) with
        | true =>
          rw [replaceL_cons_pos rep hpre hpat]
          have hlen1 : 1 ≤ pat.length := by
            cases pat with
            | nil => exact absurd rfl hpat
            | cons x xs => simp
          have hdlen : ((c :: cs).drop pat.length).length ≤ n := by
            rw [List.length_drop]
            simp only [List.length_cons] at hlen ⊢
            omega
          have hdgood : containsL ("**").data ((c :: cs).drop pat.length) = false := by
            cases hcc : containsL ("**").data ((c :: cs).drop pat.length) with
            | false => rfl
            | true => rw [containsL_drop_imp _ _ _ hcc] at hs; simp at hs
          have hr2 := ih pat rep _ hdlen hrep hstar hdgood
          exact noBold_append (noBold_of_no_star hstar) hr2
            (Or.inl fun hlast => hstar (mem_of_getLast?_eq hlast))
        | false =>
          rw [replaceL_cons_neg rep hpre]
          have hcs : containsL ("**").data cs = false := containsL_tail_false hs
          have hr2 := ih pat rep cs (by simp only [List.length_cons] at hlen; omega)
            hrep hstar hcs
          rw [containsL_cons_eq]
          have hpref : List.isPrefixOf (("**").data) (c :: replaceL pat rep cs) = false := by
            cases hcb : List.isPrefixOf (("**").data) (c :: replaceL pat rep cs) with
            | false => rfl
            | true =>
              exfalso
              have hds : ("**").data = ['*', '*'] := rfl
              rw [hds] at hcb
              rcases isPrefixOf_pair.1 hcb with ⟨hc, hhead⟩
              rcases replaceL_head pat rep cs hrep with hh | hh | hh
              · rw [hh] at hhead; cases hhead
              · rw [hh] at hhead
                have : List.isPrefixOf ['*', '*'] (c :: cs) = true :=
                  isPrefixOf_pair.2 ⟨hc, hhead⟩
                have hfalse := isPrefixOf_false_of_containsL_false hs
                rw [show ("**").data = ['*', '*'] from rfl] at hfalse
                rw [this] at hfalse
                cases hfalse
              · rw [hh] at hhead
                exact hstar (mem_of_head?_eq hhead)
          rw [hpref, hr2]
          rfl

lemma replace_preserves_noBold (pat rep s : List Char) (hrep : rep ≠ [])
    (hstar : '*' ∉ rep) (hs : containsL ("**").data s = false) :
    containsL ("**").data (replaceL pat rep s) = false :=
  replace_preserves_noBold_aux s.length pat rep s (Nat.le_refl _) hrep hstar hs

lemma stripBold_noBold_aux :
    ∀ (n : Nat) (s : List Char), s.length ≤ n →
      containsL ("**").data (stripBold s) = false := by
  intro n
  induction n with
  | zero =>
    intro s hlen
    have hs : s = [] := List.eq_nil_of_length_eq_zero (Nat.le_zero.1 hlen)
    subst hs
    rw [stripBold, replaceL_nil]
    rfl
  | succ n ih =>
    intro s hlen
    cases s with
    | nil =>
      rw [stripBold, replaceL_nil]
      rfl
    | cons c cs =>
      rw [stripBold]
      cases hpre : (("**").data).isPrefixOf (c :: cs) with
      | true =>
        rw [replaceL_cons_pos [] hpre (by decide), List.nil_append]
        have hdlen : ((c :: cs).drop (("**").data).length).length ≤ n := by
          have h2 : (("**").data).length = 2 := rfl
          rw [List.length_drop, h2]
          simp only [List.length_cons] at hlen ⊢
          omega
        exact ih _ hdlen
      | false =>
        rw [replaceL_cons_neg [] hpre]
        rw [containsL_cons_eq]
        have hr2 : containsL ("**").data (replaceL (("**").data) [] cs) = false :=
          ih cs (by simp only [List.length_cons] at hlen; omega)
        have hpref : List.isPrefixOf (("**").data)
            (c :: replaceL (("**").data) [] cs) = false := by
          cases hcb : List.isPrefixOf (("**").data)
              (c :: replaceL (("**").data) [] cs) with
          | false => rfl
          | true =>
            exfalso
            rw [show ("**").data = ['*', '*'] from rfl] at hcb
            rcases isPrefixOf_pair.1 hcb with ⟨hc, hhead⟩
            rw [show ("**").data = ['*', '*'] from rfl] at hpre
            have hcs_head : cs.head? ≠ some '*' := by
              intro hh
              rw [isPrefixOf_pair.2 ⟨hc, hh⟩] at hpre
              cases hpre
            cases cs with
            | nil =>
              rw [show replaceL ['*', '*'] [] [] = [] from replaceL_nil _ _] at hhead
              cases hhead
            | cons d ds =>
              have hd : d ≠ '*' := by
                intro hd
                exact hcs_head (by rw [hd]; rfl)
              have hpre2 : List.isPrefixOf ['*', '*'] (d :: ds) = false := by
                cases hcb2 : List.isPrefixOf ['*', '*'] (d :: ds) with
                | false => rfl
                | true =>
                  rcases isPrefixOf_pair.1 hcb2 with ⟨hd2, _⟩
                  exact absurd hd2.symm hd
              rw [replaceL_cons_neg [] hpre2] at hhead
              simp only [List.head?_cons, Option.some.injEq] at hhead
              exact hd hhead
        rw [hpref, hr2]
        rfl

lemma stripBold_noBold (s : List Char) :
    containsL ("**").data (stripBold s) = false :=
  stripBold_noBold_aux s.length s (Nat.le_refl _)

lemma containsL_suffix_imp (pat : List Char) {t s : List Char} (h : t <:+ s)
    (hc : containsL pat t = true) : containsL pat s = true := by
  obtain ⟨r, rfl⟩ := h
  exact containsL_append_right pat r t hc

lemma containsL_prefix_imp (pat : List Char) {t s : List Char} (h : t <+: s)
    (hc : containsL pat t = true) : containsL pat s = true := by
  obtain ⟨r, rfl⟩ := h
  exact containsL_append_left pat t r hc

lemma containsL_stripL_imp (pat s : List Char)
    (h : containsL pat (stripL s) = true) : containsL pat s = true := by
  have h1 : ((s.dropWhile isWS).reverse.dropWhile isWS) <:+ (s.dropWhile isWS).reverse :=
    List.dropWhile_suffix isWS
  have h2 : ((s.dropWhile isWS).reverse.dropWhile isWS).reverse <+: (s.dropWhile isWS) := by
    have := List.reverse_prefix.2 h1
    rwa [List.reverse_reverse] at this
  have h3 : (s.dropWhile isWS) <:+ s := List.dropWhile_suffix isWS
  exact containsL_suffix_imp pat h3 (containsL_prefix_imp pat h2 h)

lemma stripL_noBold {s : List Char} (h : containsL ("**").data s = false) :
    containsL ("**").data (stripL s) = false := by
  cases hcc : containsL ("**").data (stripL s) with
  | false => rfl
  | true => rw [containsL_stripL_imp _ _ hcc] at h; cases h

lemma mem_dropWhile_of_neg (p : Char → Bool) {c : Char} {s : List Char}
    (hc : p c = false) (h : c ∈ s) : c ∈ s.dropWhile p := by
  induction s with
  | nil => cases h
  | cons a as ih =>
    by_cases hpa : p a = true
    · rw [List.dropWhile_cons_of_pos hpa]
      rcases List.mem_cons.1 h with rfl | hmem
      · rw [hpa] at hc; cases hc
      · exact ih hmem
    · rw [List.dropWhile_cons_of_neg hpa]
      exact h

lemma stripL_ne_nil {c : Char} {s : List Char} (hc : isWS c = false) (h : c ∈ s) :
    stripL s ≠ [] := by
  have h1 : c ∈ s.dropWhile isWS := mem_dropWhile_of_neg isWS hc h
  have h2 : c ∈ (s.dropWhile isWS).reverse := List.mem_reverse.2 h1
  have h3 : c ∈ (s.dropWhile isWS).reverse.dropWhile isWS :=
    mem_dropWhile_of_neg isWS hc h2
  have h4 : c ∈ stripL s := List.mem_reverse.2 h3
  exact List.ne_nil_of_mem h4

lemma addTopicEmoji_noBold {t : List Char}
    (ht : containsL ("**").data t = false) :
    containsL ("**").data (addTopicEmoji t) = false := by
  have hx : ∀ (e : List Char), '*' ∉ e → e.getLast? ≠ some '*' →
      containsL ("**").data (e ++ t) = false :=
    fun e he hl => noBold_append (noBold_of_no_star he) ht (Or.inl hl)
  unfold addTopicEmoji
  split
  · split
    · exact replace_preserves_noBold _ _ _ (by decide) (by decide)
        (hx _ (by decide) (by decide))
    · exact hx _ (by decide) (by decide)
  · split
    · exact hx _ (by decide) (by decide)
    · split
      · exact hx _ (by decide) (by decide)
      · split
        · exact hx _ (by decide) (by decide)
        · split
          · exact hx _ (by decide) (by decide)
          · split
            · exact hx _ (by decide) (by decide)
            · split
              · exact hx _ (by decide) (by decide)
              · exact ht

lemma punctStage_noBold (e : ℚ) {t : List Char}
    (ht : containsL ("**").data t = false) :
    containsL ("**").data (punctStage e t) = false := by
  unfold punctStage
  split
  · exact replace_preserves_noBold _ _ _ (by decide) (by decide)
      (replace_preserves_noBold _ _ _ (by decide) (by decide) ht)
  · split
    · exact replace_preserves_noBold _ _ _ (by decide) (by decide)
        (replace_preserves_noBold _ _ _ (by decide) (by decide) ht)
    · exact ht

lemma brandMeta_noBold {t : List Char} (ht : containsL ("**").data t = false) :
    containsL ("**").data (brandMeta t) = false := by
  unfold brandMeta
  split
  · exact replace_preserves_noBold _ _ _ (by decide) (by decide) ht
  · exact ht

lemma brandModel_noBold {t : List Char} (ht : containsL ("**").data t = false) :
    containsL ("**").data (brandModel t) = false := by
  unfold brandModel
  split
  · exact replace_preserves_noBold _ _ _ (by decide) (by decide) ht
  · exact ht

lemma brandRelease_noBold {t : List Char} (ht : containsL ("**").data t = false) :
    containsL ("**").data (brandRelease t) = false := by
  unfold brandRelease
  split
  · exact replace_preserves_noBold _ _ _ (by decide) (by decide) ht
  · exact ht

lemma brandStage_noBold {t : List Char} (ht : containsL ("**").data t = false) :
    containsL ("**").data (brandStage t) = false :=
  brandRelease_noBold (brandModel_noBold (brandMeta_noBold ht))

lemma refline_noBold (v : Option (List Char))
    (hv : ∀ u, v = some u → containsL ("**").data u = false) :
    containsL ("**").data (("\n\nRead more: ").data ++ pyStrOpt v) = false := by
  refine noBold_append (by decide) ?_ (Or.inl (by decide))
  cases v with
  | none => decide
  | some u => exact hv u rfl

lemma refStage_noBold (v : Option (List Char)) {t : List Char}
    (ht : containsL ("**").data t = false)
    (hv : ∀ u, v = some u → containsL ("**").data u = false) :
    containsL ("**").data (refStage (some v) t) = false := by
  unfold refStage
  split
  · show containsL ("**").data (t ++ ("\n\nRead more: ").data ++ pyStrOpt v) = false
    rw [List.append_assoc]
    refine noBold_append ht (refline_noBold v hv) (Or.inr ?_)
    cases v <;> exact fun h => by cases h
  · exact ht

lemma formatPost_noBold (e : ℚ) (v : Option (List Char)) (s : List Char)
    (hv : ∀ u, v = some u → containsL ("**").data u = false) :
    containsL ("**").data (formatPost e (some v) s) = false := by
  unfold formatPost
  exact stripL_noBold (refStage_noBold v
    (brandStage_noBold (punctStage_noBold e (addTopicEmoji_noBold (stripBold_noBold s)))) hv)

lemma formatPost_ne_nil (e : ℚ) (v : Option (List Char)) (s : List Char) :
    formatPost e (some v) s ≠ [] := by
  unfold formatPost
  have hcolon : isWS ':' = false := by decide
  generalize brandStage (punctStage e (addTopicEmoji (stripBold s))) = t
  unfold refStage
  split
  · show stripL (t ++ ("\n\nRead more: ").data ++ pyStrOpt v) ≠ []
    refine stripL_ne_nil hcolon ?_
    rw [List.append_assoc]
    refine List.mem_append_right t ?_
    exact List.mem_append_left _ (by decide)
  · rename_i hcond
    have hmk : containsL ("Read more:").data t = true ∨
        containsL ("Check it out:").data t = true ∨
        containsL ("Link:").data t = true := by
      by_contra hno
      push_neg at hno
      obtain ⟨h1, h2, h3⟩ := hno
      apply hcond
      simp only [Bool.and_eq_true, Bool.not_eq_true']
      exact ⟨⟨Bool.not_eq_true _ ▸ (Bool.eq_false_iff.2 h1), Bool.eq_false_iff.2 h2⟩,
        Bool.eq_false_iff.2 h3⟩
    refine stripL_ne_nil hcolon ?_
    rcases hmk with hm | hm | hm
    · exact mem_of_containsL hm (by decide)
    · exact mem_of_containsL hm (by decide)
    · exact mem_of_containsL hm (by decide)

lemma genContentHandler_shape (p : Personality) (uc : UserContext) (w : GenWorld)
    (curl comm : Option (List Char)) (url : List Char) (calls : List GenCall) :
    (∃ prompt imgUrl,
       genContentHandler p uc w curl comm url calls
         = genMain p (some (some url)) w.provider prompt imgUrl
             (calls ++ [GenCall.imageCall ("technology").data])) ∨
    genContentHandler p uc w curl comm url calls
      = genOuterFallback curl comm (calls ++ [GenCall.imageCall ("technology").data]) := by
  unfold genContentHandler
  cases w.image ("technology").data with
  | ok imgUrl => exact Or.inl ⟨_, imgUrl, rfl⟩
  | error e => exact Or.inr rfl

lemma generatePost_shape (p : Personality) (uc : UserContext) (w : GenWorld)
    (curl desc comm : Option (List Char)) :
    (∃ v prompt imgUrl callsSoFar,
       generatePost p uc w curl desc comm
         = genMain p (some v) w.provider prompt imgUrl callsSoFar ∧
       (∀ u, v = some u → curl = some u) ∧
       (∃ q, GenCall.imageCall q ∈ callsSoFar) ∧
       (∀ pr, GenCall.providerCall pr ∉ callsSoFar)) ∨
    (∃ callsSoFar,
       generatePost p uc w curl desc comm = genOuterFallback curl comm callsSoFar ∧
       (∀ pr, GenCall.providerCall pr ∉ callsSoFar)) := by
  unfold generatePost
  by_cases hcu : pyTruthy curl = true
  · rw [if_pos hcu]
    have hcurl_eq : ∀ u, some (curl.getD []) = some u → curl = some u := by
      intro u hu
      cases curl with
      | none => simp [pyTruthy] at hcu
      | some x => simpa using hu
    cases ha : w.analyzer with
    | error e =>
      dsimp only
      rcases genContentHandler_shape p uc w curl comm (curl.getD [])
          [GenCall.analyzerCall (curl.getD [])] with ⟨prompt, imgUrl, hEq⟩ | hEq
      · left
        refine ⟨some (curl.getD []), prompt, imgUrl, _, hEq, hcurl_eq,
          ⟨("technology").data, ?_⟩, ?_⟩
        · simp
        · intro pr
          simp
      · right
        refine ⟨_, hEq, ?_⟩
        intro pr
        simp
    | ok info =>
      dsimp only
      cases hcp : createContentBasedPrompt p uc info comm with
      | error e =>
        dsimp only
        rcases genContentHandler_shape p uc w curl comm (curl.getD [])
            [GenCall.analyzerCall (curl.getD [])] with ⟨prompt, imgUrl, hEq⟩ | hEq
        · left
          refine ⟨some (curl.getD []), prompt, imgUrl, _, hEq, hcurl_eq,
            ⟨("technology").data, ?_⟩, ?_⟩
          · simp
          · intro pr
            simp
        · right
          refine ⟨_, hEq, ?_⟩
          intro pr
          simp
      | ok prompt =>
        dsimp only
        cases him : w.image (info.topic.getD ("technology").data) with
        | ok imgUrl =>
          left
          refine ⟨some (curl.getD []), prompt, imgUrl, _, rfl, hcurl_eq,
            ⟨info.topic.getD ("technology").data, ?_⟩, ?_⟩
          · simp
          · intro pr
            simp
        | error e =>
          rcases genContentHandler_shape p uc w curl comm (curl.getD [])
              ([GenCall.analyzerCall (curl.getD [])]
                ++ [GenCall.imageCall (info.topic.getD ("technology").data)])
            with ⟨prompt2, imgUrl, hEq⟩ | hEq
          · left
            refine ⟨some (curl.getD []), prompt2, imgUrl, _, hEq, hcurl_eq,
              ⟨("technology").data, ?_⟩, ?_⟩
            · simp
            · intro pr
              simp
          · right
            refine ⟨_, hEq, ?_⟩
            intro pr
            simp
  · rw [if_neg hcu]
    dsimp only
    cases him : w.image (if pyTruthy desc = true then desc.getD []
        else ("technology").data) with
    | ok imgUrl =>
      left
      refine ⟨none, _, imgUrl, _, rfl, fun u h => Option.noConfusion h,
        ⟨(if pyTruthy desc = true then desc.getD [] else ("technology").data), ?_⟩, ?_⟩
      · simp
      · intro pr
        simp
    | error e =>
      right
      refine ⟨_, rfl, ?_⟩
      intro pr
      simp

lemma genOuterFallback_post_ne_nil (curl comm : Option (List Char))
    (calls : List GenCall) : (genOuterFallback curl comm calls).1.post ≠ [] := by
  unfold genOuterFallback
  dsimp only
  intro hnil
  rw [List.append_eq_nil] at hnil
  obtain ⟨h1, _⟩ := hnil
  rw [List.append_eq_nil] at h1
  obtain ⟨h2, _⟩ := h1
  rw [List.append_eq_nil] at h2
  obtain ⟨h3, _⟩ := h2
  exact absurd h3 (by decide)

lemma genOuterFallback_post_noBold (curl comm : Option (List Char))
    (calls : List GenCall)
    (hcomm : ∀ c, comm = some c → containsL ("**").data c = false)
    (hcurl : ∀ u, curl = some u → containsL ("**").data u = false) :
    containsL ("**").data (genOuterFallback curl comm calls).1.post = false := by
  unfold genOuterFallback
  dsimp only
  have hc2 : containsL ("**").data
      (if pyTruthy comm = true then comm.getD [] else []) = false := by
    by_cases hpt : pyTruthy comm = true
    · rw [if_pos hpt]
      cases comm with
      | none => simp [pyTruthy] at hpt
      | some c => exact hcomm c rfl
    · rw [if_neg hpt]
      decide
  have hu2 : containsL ("**").data
      (if pyTruthy curl = true then curl.getD []
       else ("Check out the link in comments").data) = false := by
    by_cases hpt : pyTruthy curl = true
    · rw [if_pos hpt]
      cases curl with
      | none => simp [pyTruthy] at hpt
      | some u => exact hcurl u rfl
    · rw [if_neg hpt]
      decide
  rw [List.append_assoc, List.append_assoc]
  have hhd : ((("\n\nRead more: ").data
      ++ (if pyTruthy curl = true then curl.getD []
          else ("Check out the link in comments").data))).head? = some '\n' := rfl
  refine noBold_append (by decide) ?_ (Or.inl (by decide))
  refine noBold_append hc2 ?_ (Or.inr ?_)
  · exact noBold_append (by decide) hu2 (Or.inl (by decide))
  · intro h
    rw [hhd] at h
    exact absurd (Option.some.inj h) (by decide)

/-! ## Generation orchestrator: claim theorems -/

set_option maxHeartbeats 2000000 in
/-- Claim C4 as amended: `generate_post` is total by construction (the
embedding is a function) and its text is never empty, for every request and
every oracle outcome unconditionally; the text contains no literal `**`
provided neither the commentary nor the content URL themselves contain `**`.
The proviso on the no-`**` clause alone is forced: the outer-exception
fallback and the trailing reference line splice those two inputs into the
result verbatim, while only provider output passes through the
bold-stripping formatter. -/
theorem generate_total_nonempty_and_nobold
    (p : Personality) (uc : UserContext) (w : GenWorld)
    (curl desc comm : Option (List Char)) :
    (generatePost p uc w curl desc comm).1.post ≠ [] ∧
    ((∀ c, comm = some c → containsL ("**").data c = false) →
     (∀ u, curl = some u → containsL ("**").data u = false) →
     containsL ("**").data (generatePost p uc w curl desc comm).1.post = false) := by
  rcases generatePost_shape p uc w curl desc comm with
    ⟨v, prompt, imgUrl, calls, hEq, hvc, _, _⟩ | ⟨calls, hEq, _⟩
  · rw [hEq]
    refine ⟨formatPost_ne_nil _ _ _, ?_⟩
    intro _ hcurl
    exact formatPost_noBold _ _ _ (fun u hu => hcurl u (hvc u hu))
  · rw [hEq]
    refine ⟨genOuterFallback_post_ne_nil curl comm calls, ?_⟩
    intro hcomm hcurl
    exact genOuterFallback_post_noBold curl comm calls hcomm hcurl

/-- Neutral personality fixture for concrete evaluations. -/
def genP0 : Personality := ⟨0, 0, 0, 0, fun _ => none⟩

/-- Empty user-context fixture for concrete evaluations. -/
def genUC0 : UserContext := ⟨[], [], [], [], [], [], [], [], [], [], [], [], [], []⟩

/-- World where the analyzer throws, image lookups throw, provider succeeds. -/
def genWimgFail : GenWorld :=
  ⟨Except.error (), fun _ => Except.error (), ProviderOutcome.ok (("x").data)⟩

/-- World where the analyzer throws, image lookups return no image, provider
succeeds with the text `Hello`. -/
def genW0 : GenWorld :=
  ⟨Except.error (), fun _ => Except.ok none, ProviderOutcome.ok (("Hello").data)⟩

/-- World where the provider call fails with HTTP 500. -/
def genW500 : GenWorld :=
  ⟨Except.error (), fun _ => Except.ok none, ProviderOutcome.httpError 500⟩

set_option maxRecDepth 100000 in
set_option maxHeartbeats 4000000 in
/-- Counterexample to claim C4 as stated: with a commentary of `**` and an
image lookup that raises, the outer fallback echoes the commentary verbatim,
so the returned text contains the literal `**`. -/
theorem generate_nobold_claim_counterexample :
    containsL ("**").data
      (generatePost genP0 genUC0 genWimgFail none none (some (("**").data))).1.post
      = true := by decide

/-- Witness for the amended C4 at a concrete request with no commentary and
no content URL: unconditional non-emptiness, and the no-`**` clause with its
provisos discharged. -/
theorem generate_total_nonempty_and_nobold_witness :
    (generatePost genP0 genUC0 genW0 none (some (("Hello").data)) none).1.post ≠ [] ∧
    containsL ("**").data
      (generatePost genP0 genUC0 genW0 none (some (("Hello").data)) none).1.post = false :=
  ⟨(generate_total_nonempty_and_nobold genP0 genUC0 genW0 none
      (some (("Hello").data)) none).1,
   (generate_total_nonempty_and_nobold genP0 genUC0 genW0 none
      (some (("Hello").data)) none).2
     (fun _ hc => Option.noConfusion hc) (fun _ hu => Option.noConfusion hu)⟩

/-- Claim C5: whenever the provider call was issued with some prompt and the
provider failed (any non-success branch), the text placed where provider
output would go is exactly the fallback selected by keyword-matching that
prompt — the article fallback if `article` occurs in the lowercased prompt,
else the video fallback if `video` occurs, else the generic one — run through
the usual post-formatting; and an image lookup appears in the trace
independently of the failure. -/
theorem provider_failure_selects_fallback
    (p : Personality) (uc : UserContext) (w : GenWorld)
    (curl desc comm : Option (List Char)) (prompt : List Char)
    (hfail : ∀ c, w.provider ≠ ProviderOutcome.ok c)
    (hcall : GenCall.providerCall prompt ∈ (generatePost p uc w curl desc comm).2) :
    (∃ v, (generatePost p uc w curl desc comm).1.post
        = formatPost p.enthusiasm (some v)
            (if containsL ("article").data (toLowerL prompt) = true then articleFallback
             else if containsL ("video").data (toLowerL prompt) = true then videoFallback
             else genericFallback)) ∧
    (∃ q, GenCall.imageCall q ∈ (generatePost p uc w curl desc comm).2) := by
  rcases generatePost_shape p uc w curl desc comm with
    ⟨v, prompt0, imgUrl, calls, hEq, hvc, ⟨q, hq⟩, hnp⟩ | ⟨calls, hEq, hnp⟩
  · rw [hEq] at hcall ⊢
    have htr : (genMain p (some v) w.provider prompt0 imgUrl calls).2
        = calls ++ [GenCall.providerCall prompt0] := rfl
    rw [htr] at hcall
    rcases List.mem_append.1 hcall with hmem | hmem
    · exact absurd hmem (hnp prompt)
    · have hpr : prompt = prompt0 := by
        have h := List.mem_singleton.1 hmem
        injection h
      subst hpr
      constructor
      · refine ⟨v, ?_⟩
        have hpost : (genMain p (some v) w.provider prompt imgUrl calls).1.post
            = formatPost p.enthusiasm (some v)
                (generateWithDeepseek w.provider prompt) := rfl
        rw [hpost]
        have hfb : generateWithDeepseek w.provider prompt
            = generateFallbackResponse prompt := by
          cases hwp : w.provider with
          | ok c => exact absurd hwp (hfail c)
          | httpError s => rfl
          | badJson => rfl
          | missingChoices => rfl
          | exc => rfl
        rw [hfb]
        rfl
      · exact ⟨q, List.mem_append_left _ hq⟩
  · rw [hEq] at hcall
    exact absurd hcall (hnp prompt)

/-- The network trace of the C5 witness scenario, by computation: one image
lookup, then the provider call with the description-based prompt. -/
lemma genW500_trace :
    (generatePost genP0 genUC0 genW500 none (some (("Hello").data)) none).2
      = [GenCall.imageCall (("Hello").data),
         GenCall.providerCall (createDescriptionBasedPrompt genP0 genUC0
           (some (("Hello").data)) none)] := rfl

/-- Witness for C5: the HTTP-500 scenario of the specification on a
description-only request whose prompt mentions neither article nor video. -/
theorem provider_failure_selects_fallback_witness :
    (∃ v, (generatePost genP0 genUC0 genW500 none (some (("Hello").data)) none).1.post
        = formatPost genP0.enthusiasm (some v)
            (if containsL ("article").data (toLowerL (createDescriptionBasedPrompt
                genP0 genUC0 (some (("Hello").data)) none)) = true then articleFallback
             else if containsL ("video").data (toLowerL (createDescriptionBasedPrompt
                genP0 genUC0 (some (("Hello").data)) none)) = true then videoFallback
             else genericFallback)) ∧
    (∃ q, GenCall.imageCall q
        ∈ (generatePost genP0 genUC0 genW500 none (some (("Hello").data)) none).2) :=
  provider_failure_selects_fallback genP0 genUC0 genW500 none
    (some (("Hello").data)) none
    (createDescriptionBasedPrompt genP0 genUC0 (some (("Hello").data)) none)
    (fun _ h => ProviderOutcome.noConfusion h)
    (by rw [genW500_trace]; exact List.mem_cons_of_mem _ (List.mem_cons_self _ _))

set_option maxRecDepth 100000 in
set_option maxHeartbeats 4000000 in
/-- Claim C6 fails on the code: on a description-only request (no content
URL) the attribute `last_content_url` exists with value `None`, so
`_format_post` appends the dangling reference line `Read more: None`.  This
theorem evaluates the embedded `generate_post` at such a request: the result
text is literally `Hello` followed by the dangling reference line. -/
theorem generate_without_url_appends_read_more_none :
    (generatePost genP0 genUC0 genW0 none (some (("Hello").data)) none).1.post
      = ("Hello\n\nRead more: None").data ∧
    containsL ("Read more: None").data
      (generatePost genP0 genUC0 genW0 none (some (("Hello").data)) none).1.post
      = true := by
  constructor <;> decide

/-- The bridge between the embedded comparison and the mathematical one: for
a positive denominator, `qGtB a n d` decides `n/d < a`. -/
lemma qGtB_iff_lt (a : ℚ) (n d : Int) (hd : 0 < d) :
    qGtB a n d = true ↔ (n : ℚ) / (d : ℚ) < a := by
  have hden : (0 : ℚ) < (a.den : ℚ) := by exact_mod_cast a.den_pos
  have hd2 : (0 : ℚ) < (d : ℚ) := by exact_mod_cast hd
  have key := congrArg (fun x : ℚ => x * (a.den : ℚ)) (Rat.num_div_den a)
  simp only [div_mul_cancel₀ _ (ne_of_gt hden)] at key
  have main : (n * (a.den : Int) < a.num * d)
      ↔ ((n : ℚ) * (a.den : ℚ) < (a.num : ℚ) * (d : ℚ)) := by
    constructor <;> intro h <;> exact_mod_cast h
  have main2 : ((n : ℚ) * (a.den : ℚ) < (a.num : ℚ) * (d : ℚ))
      ↔ ((n : ℚ) < a * (d : ℚ)) := by
    rw [key, show a * (a.den : ℚ) * (d : ℚ) = a * (d : ℚ) * (a.den : ℚ) by ring]
    exact mul_lt_mul_right hden
  unfold qGtB
  rw [decide_eq_true_eq, div_lt_iff₀ hd2, main, main2]

/-- Spec-side characterisation of a global single-character replacement:
every character is independently expanded by `f`. -/
def expandEach (f : Char → List Char) : List Char → List Char
  | [] => []
  | c :: cs => f c ++ expandEach f cs

lemma expandEach_append (f : Char → List Char) (a b : List Char) :
    expandEach f (a ++ b) = expandEach f a ++ expandEach f b := by
  induction a with
  | nil => rfl
  | cons c cs ih => simp [expandEach, ih]

lemma expandEach_congr {f f2 : Char → List Char} (s : List Char)
    (h : ∀ c, f c = f2 c) : expandEach f s = expandEach f2 s := by
  induction s with
  | nil => rfl
  | cons c cs ih => simp [expandEach, ih, h c]

lemma expandEach_comp (g f : Char → List Char) (s : List Char) :
    expandEach g (expandEach f s) = expandEach (fun c => expandEach g (f c)) s := by
  induction s with
  | nil => rfl
  | cons c cs ih => simp [expandEach, expandEach_append, ih]

lemma replaceL_single (a : Char) (rep : List Char) (s : List Char) :
    replaceL [a] rep s = expandEach (fun c => if c = a then rep else [c]) s := by
  induction s with
  | nil => rw [replaceL_nil]; rfl
  | cons c cs ih =>
    by_cases hca : a = c
    · have hpre : List.isPrefixOf [a] (c :: cs) = true := by
        simp [List.isPrefixOf, hca]
      rw [replaceL_cons_pos rep hpre (by simp)]
      show rep ++ replaceL [a] rep cs = _
      rw [ih]
      show _ = (if c = a then rep else [c]) ++ expandEach _ cs
      rw [if_pos hca.symm]
    · have hpre : List.isPrefixOf [a] (c :: cs) = false := by
        simp only [List.isPrefixOf, Bool.and_eq_true, beq_iff_eq]
        simp [hca]
      rw [replaceL_cons_neg rep hpre, ih]
      show c :: expandEach _ cs = (if c = a then rep else [c]) ++ expandEach _ cs
      rw [if_neg (fun h => hca h.symm)]
      rfl

/-- Claim C7: the punctuation stage of `_format_post` replaces every period
and every question mark according to the enthusiasm thresholds — above 0.7
each `.` becomes `! ✨` and each `?` becomes `? 🤔`; above 0.4 (and at most
0.7) each `.` becomes `! 👏` and each `?` becomes `? 💭`; otherwise the text
is unchanged.  `expandEach` expresses per-character global replacement. -/
theorem punctuation_replacement_by_enthusiasm (e : ℚ) (s : List Char) :
    ((7 : ℚ) / 10 < e →
      punctStage e s = expandEach (fun c =>
        if c = '.' then ("! ✨").data
        else if c = '?' then ("? 🤔").data else [c]) s) ∧
    (¬ (7 : ℚ) / 10 < e → (4 : ℚ) / 10 < e →
      punctStage e s = expandEach (fun c =>
        if c = '.' then ("! 👏").data
        else if c = '?' then ("? 💭").data else [c]) s) ∧
    (¬ (4 : ℚ) / 10 < e → punctStage e s = s) := by
  have h7 : qGtB e 7 10 = true ↔ (7 : ℚ) / 10 < e := by
    have h := qGtB_iff_lt e 7 10 (by norm_num)
    simpa using h
  have h4 : qGtB e 4 10 = true ↔ (4 : ℚ) / 10 < e := by
    have h := qGtB_iff_lt e 4 10 (by norm_num)
    simpa using h
  refine ⟨?_, ?_, ?_⟩
  · intro h
    unfold punctStage
    rw [if_pos (h7.2 h)]
    have e1 : replaceL ((".").data) (("! ✨").data) s
        = expandEach (fun c => if c = '.' then ("! ✨").data else [c]) s :=
      replaceL_single '.' (("! ✨").data) s
    have e2 : replaceL (("?").data) (("? 🤔").data)
          (expandEach (fun c => if c = '.' then ("! ✨").data else [c]) s)
        = expandEach (fun c => if c = '?' then ("? 🤔").data else [c])
          (expandEach (fun c => if c = '.' then ("! ✨").data else [c]) s) :=
      replaceL_single '?' (("? 🤔").data) _
    rw [e1, e2, expandEach_comp]
    refine expandEach_congr s ?_
    intro c
    by_cases hc1 : c = '.'
    · subst hc1
      decide
    · by_cases hc2 : c = '?'
      · subst hc2
        decide
      · simp [expandEach, hc1, hc2]
  · intro h hm
    unfold punctStage
    rw [if_neg (fun hq => h (h7.1 hq)), if_pos (h4.2 hm)]
    have e1 : replaceL ((".").data) (("! 👏").data) s
        = expandEach (fun c => if c = '.' then ("! 👏").data else [c]) s :=
      replaceL_single '.' (("! 👏").data) s
    have e2 : replaceL (("?").data) (("? 💭").data)
          (expandEach (fun c => if c = '.' then ("! 👏").data else [c]) s)
        = expandEach (fun c => if c = '?' then ("? 💭").data else [c])
          (expandEach (fun c => if c = '.' then ("! 👏").data else [c]) s) :=
      replaceL_single '?' (("? 💭").data) _
    rw [e1, e2, expandEach_comp]
    refine expandEach_congr s ?_
    intro c
    by_cases hc1 : c = '.'
    · subst hc1
      decide
    · by_cases hc2 : c = '?'
      · subst hc2
        decide
      · simp [expandEach, hc1, hc2]
  · intro h
    have h7n : ¬ (7 : ℚ) / 10 < e := by
      intro hx
      exact h (lt_trans (by norm_num) hx)
    unfold punctStage
    rw [if_neg (fun hq => h7n (h7.1 hq)), if_neg (fun hq => h (h4.1 hq))]

/-- Witness for C7 at enthusiasm 1 on a one-period text. -/
theorem punctuation_replacement_by_enthusiasm_witness :
    ((7 : ℚ) / 10 < 1) ∧
    punctStage 1 ((".").data) = expandEach (fun c =>
        if c = '.' then ("! ✨").data
        else if c = '?' then ("? 🤔").data else [c]) ((".").data) :=
  ⟨by norm_num, (punctuation_replacement_by_enthusiasm 1 ((".").data)).1 (by norm_num)⟩
